import Mathlib

/-!
Verification of the store-monitoring service (`src/script.py`).

Shallow embedding conventions:
* Instants are integer minutes since an epoch that falls on a Monday 00:00
  in UTC (the service works at whole-minute granularity: every use of a
  `datetime` in the estimator reads only `hour`, `minute`, `weekday()` and
  `date()`).
* A store's rows from the three source tables (`store_status`,
  `business_hours`, `store_timezone`) are bundled in a `Store` value; the
  timezone lookup (with its `America/Chicago` default) is modelled as the
  already-resolved fixed offset, in minutes, that `astimezone` adds to a
  UTC instant.
* SQL queries become list operations on the stored rows: `filter` for
  `WHERE`, a stable `insertionSort` for `ORDER BY`, `find?` for `first()`.
* Python exceptions in the worker are modelled with `Except`.
-/

/-- Store status value, `'active'` or `'inactive'` in the `status` column. -/
inductive Status where
  | active
  | inactive
deriving DecidableEq, Repr

/-- A row of the `store_status` table: one observation for one store.
`timestamp_utc` is in minutes since the (Monday-aligned) epoch. -/
structure Observation where
  timestamp_utc : Int
  status : Status
deriving DecidableEq, Repr

/-- A row of the `business_hours` table.  The two time columns are kept as
raw strings exactly as stored, because `get_business_hours` parses them
with `parse_time_to_minutes` on every lookup. -/
structure BusinessHoursRow where
  day_of_week : Nat
  start_time_local : String
  end_time_local : String
deriving DecidableEq, Repr

/-- All database rows that concern one store, plus its resolved timezone
offset (minutes added to a UTC instant to obtain the local instant; the
`America/Chicago` default of `get_store_timezone` is one such offset). -/
structure Store where
  observations : List Observation
  business_hours : List BusinessHoursRow
  tz_offset : Int
deriving Repr

/-! ### `int()` and `str.split(':')` -/

/-- One character of Python whitespace as stripped by `int()`. -/
def pySpace (c : Char) : Bool :=
  c = ' ' || c = '\t' || c = '\n' || c = '\r'

/-- Digit run accepted by Python `int()` after the optional sign: at least
one digit, with single underscores allowed only between digits.  The flag
records whether an underscore may come next (i.e. the previous character
was a digit). -/
def pyDigitsGo : List Char → Nat → Bool → Option Nat
  | [], _, false => none
  | [], acc, true => some acc
  | c :: rest, acc, prev =>
    if c.isDigit then pyDigitsGo rest (10 * acc + (c.toNat - 48)) true
    else if c = '_' && prev then pyDigitsGo rest acc false
    else none

/-- Python `int(str)` on a character list: strip surrounding whitespace,
optional `+`/`-` sign, then a digit run; `none` models `ValueError`. -/
def pyInt (cs : List Char) : Option Int :=
  let t := ((cs.dropWhile pySpace).reverse.dropWhile pySpace).reverse
  match t with
  | '+' :: rest => (pyDigitsGo rest 0 false).map (fun n => (n : Int))
  | '-' :: rest => (pyDigitsGo rest 0 false).map (fun n => -(n : Int))
  | other => (pyDigitsGo other 0 false).map (fun n => (n : Int))

/-- Python `str.split(':')`: always returns at least one (possibly empty)
piece; a separator at either end yields an empty piece there. -/
def splitOnColon : List Char → List (List Char)
  | [] => [[]]
  | c :: rest =>
    let r := splitOnColon rest
    if c = ':' then [] :: r
    else
      match r with
      | [] => [[c]]
      | h :: t => (c :: h) :: t

/-- `parse_time_to_minutes` (script.py:87): split on `:`, convert the three
pieces with `int`, return `h * 60 + m + s // 60`; any `ValueError`
(wrong piece count or an unparseable piece) yields `0`. -/
def parse_time_to_minutes (time_str : String) : Int :=
  match (splitOnColon time_str.toList).mapM pyInt with
  | some [h, m, sec] => h * 60 + m + sec / 60
  | _ => 0

/-! ### Helper functions of the estimator -/

/-- `calculate_overlap` (script.py:95): overlap in minutes between business
hours and an interval, both as minutes-of-day. -/
def calculate_overlap (business_start_minutes business_end_minutes
    interval_start_minutes interval_end_minutes : Int) : Int :=
  max 0 (min business_end_minutes interval_end_minutes -
    max business_start_minutes interval_start_minutes)

/-- `get_business_hours` (script.py:131): first `business_hours` row for
the day, parsed; `(0, 24*60)` when no row exists. -/
def get_business_hours (store : Store) (day_of_week : Nat) : Int × Int :=
  match store.business_hours.find? (fun r => r.day_of_week == day_of_week) with
  | some r => (parse_time_to_minutes r.start_time_local,
      parse_time_to_minutes r.end_time_local)
  | none => (0, 24 * 60)

/-- `datetime.weekday()` of a local instant: 0 = Monday … 6 = Sunday
(the epoch is a Monday midnight). -/
def weekday (t : Int) : Nat := ((t / 1440) % 7).toNat

/-- Choice of the later of two candidate rows, used to model the first row
of an `ORDER BY timestamp_utc DESC` query deterministically (on equal
timestamps the earlier-stored row is kept). -/
def pick_later (acc : Option Observation) (o : Observation) : Option Observation :=
  match acc with
  | none => some o
  | some b => if b.timestamp_utc < o.timestamp_utc then some o else some b

/-- The `initial_status` query (script.py:179): the latest observation at
or before `start_time` (first row under `ORDER BY timestamp_utc DESC`). -/
def latest_at_or_before (obs : List Observation) (t : Int) : Option Observation :=
  (obs.filter (fun o => decide (o.timestamp_utc ≤ t))).foldl pick_later none

/-- Ascending-timestamp order used by the `ORDER BY timestamp_utc` query. -/
def obsLe (a b : Observation) : Prop := a.timestamp_utc ≤ b.timestamp_utc

instance : DecidableRel obsLe := fun a b => Int.decLe _ _
instance : IsTotal Observation obsLe := ⟨fun a b => Int.le_total _ _⟩
instance : IsTrans Observation obsLe := ⟨fun _ _ _ h1 h2 => le_trans h1 h2⟩

/-- The `status_records` query (script.py:185): observations with
`start_time ≤ timestamp_utc ≤ end_time`, ordered by timestamp. -/
def status_records_in_range (store : Store) (start_time end_time : Int) :
    List Observation :=
  List.insertionSort obsLe
    (store.observations.filter (fun o =>
      decide (start_time ≤ o.timestamp_utc) && decide (o.timestamp_utc ≤ end_time)))

/-- The guard of the no-data shortcut (script.py:195):
`not initial_status and not status_records`. -/
def no_data_condition (store : Store) (start_time end_time : Int) : Bool :=
  (latest_at_or_before store.observations start_time).isNone &&
    (status_records_in_range store start_time end_time).isEmpty

/-- The breakpoint list `all_status_points` (script.py:215-228): local
window start with the effective initial status, the in-range observations
whose local time is strictly inside the local window, then the local
window end carrying the status of the last `status_records` row (or the
initial status when there is none). -/
def all_status_points (store : Store) (start_time end_time : Int) :
    List (Int × Status) :=
  let local_start_time := start_time + store.tz_offset
  let local_end_time := end_time + store.tz_offset
  let status_records := status_records_in_range store start_time end_time
  let current_status :=
    match latest_at_or_before store.observations start_time with
    | some o => o.status
    | none => Status.inactive
  let middle :=
    (status_records.filter (fun r =>
        decide (local_start_time < r.timestamp_utc + store.tz_offset) &&
          decide (r.timestamp_utc + store.tz_offset < local_end_time))).map
      (fun r => (r.timestamp_utc + store.tz_offset, r.status))
  let last_status :=
    match status_records.getLast? with
    | some r => r.status
    | none => current_status
  (local_start_time, current_status) :: middle ++ [(local_end_time, last_status)]

/-- One iteration of the segment loop (script.py:231-298) for a
consecutive breakpoint pair: returns the (uptime, downtime) contribution.
When the two points fall on different calendar dates the segment is split
into `[current, 23:59]` of the first date and `[00:00, next]` of the
second date, each against its own day's business hours. -/
def segment_contribution (store : Store) (p q : Int × Status) : Int × Int :=
  let current_time := p.1
  let next_time := q.1
  let current_status := p.2
  if current_time / 1440 ≠ next_time / 1440 then
    let bh1 := get_business_hours store (weekday current_time)
    let ov1 := calculate_overlap bh1.1 bh1.2 (current_time % 1440) (23 * 60 + 59)
    let bh2 := get_business_hours store (weekday next_time)
    let ov2 := calculate_overlap bh2.1 bh2.2 0 (next_time % 1440)
    if current_status = Status.active then (ov1 + ov2, 0) else (0, ov1 + ov2)
  else
    let bh := get_business_hours store (weekday current_time)
    let ov := calculate_overlap bh.1 bh.2 (current_time % 1440) (next_time % 1440)
    if current_status = Status.active then (ov, 0) else (0, ov)

/-- The segment loop (script.py:231): accumulate the contributions of all
consecutive breakpoint pairs. -/
def segments_total (store : Store) : List (Int × Status) → Int × Int
  | p :: q :: rest =>
    let c := segment_contribution store p q
    let r := segments_total store (q :: rest)
    (c.1 + r.1, c.2 + r.2)
  | _ => (0, 0)

/-- `calculate_uptime_downtime` (script.py:152): uptime/downtime minutes
for one store over `[start_time, end_time]`, against business hours. -/
def calculate_uptime_downtime (store : Store) (start_time end_time : Int) :
    Int × Int :=
  let local_start_time := start_time + store.tz_offset
  let local_end_time := end_time + store.tz_offset
  if no_data_condition store start_time end_time then
    -- script.py:195-209: whole window treated as downtime overlap,
    -- using only the start's day-of-week and the two minutes-of-day
    let day_of_week := weekday local_start_time
    let bh := get_business_hours store day_of_week
    let interval_start_minutes := local_start_time % 1440
    let interval_end_minutes := local_end_time % 1440
    (0, calculate_overlap bh.1 bh.2 interval_start_minutes interval_end_minutes)
  else
    segments_total store (all_status_points store start_time end_time)

/-! ### Scheduled-open minutes (specification-side measure for §8) -/

/-- Whether local minute `t` lies inside that local day's business hours
as resolved by `get_business_hours`. -/
def openAt (store : Store) (t : Int) : Prop :=
  (get_business_hours store (weekday t)).1 ≤ t % 1440 ∧
    t % 1440 < (get_business_hours store (weekday t)).2

instance (store : Store) (t : Int) : Decidable (openAt store t) :=
  inferInstanceAs (Decidable (_ ∧ _))

/-- Total scheduled-open minutes over the local half-open interval
`[a, b)`: the count of local minutes that fall inside business hours. -/
def scheduled_open_minutes (store : Store) (a b : Int) : Int :=
  (((Finset.Ico a b).filter (fun t => openAt store t)).card : Int)

/-! ### Report rows and the per-store builder -/

/-- One output row of the report (`generate_store_report`'s dict).  The
day/week metrics are exact rationals, since Python produces exact
division results for these inputs (`minutes / 60`). -/
structure ReportRow where
  store_id : String
  uptime_last_hour : Int
  uptime_last_day : Rat
  uptime_last_week : Rat
  downtime_last_hour : Int
  downtime_last_day : Rat
  downtime_last_week : Rat
deriving DecidableEq, Repr

/-- `generate_store_report` (script.py:302): three estimator calls for the
trailing hour/day/week windows ending at `now`, hour metrics kept in
minutes, day and week metrics divided by 60. -/
def generate_store_report (store : Store) (store_id : String) (now : Int) :
    ReportRow :=
  let last_hour_start := now - 60
  let last_day_start := now - 1440
  let last_week_start := now - 7 * 1440
  let hour := calculate_uptime_downtime store last_hour_start now
  let day := calculate_uptime_downtime store last_day_start now
  let week := calculate_uptime_downtime store last_week_start now
  { store_id := store_id
    uptime_last_hour := hour.1
    uptime_last_day := (day.1 : Rat) / 60
    uptime_last_week := (week.1 : Rat) / 60
    downtime_last_hour := hour.2
    downtime_last_day := (day.2 : Rat) / 60
    downtime_last_week := (week.2 : Rat) / 60 }

/-! ### Report jobs, the worker, and polling -/

/-- Job status column of the `reports` table. -/
inductive JobStatus where
  | Running
  | Complete
  | Error
deriving DecidableEq, Repr

/-- A row of the `reports` table. -/
structure Report where
  id : String
  status : JobStatus
  filename : Option String
deriving DecidableEq, Repr

/-- `Report.query.get(report_id)`: the row with the given id. -/
def getJob (reports : List Report) (report_id : String) : Option Report :=
  reports.find? (fun r => r.id == report_id)

/-- Fetch-then-commit of a mutation of the row with the given id. -/
def update_report : List Report → String → (Report → Report) → List Report
  | [], _, _ => []
  | r :: rest, report_id, f =>
    if r.id == report_id then f r :: update_report rest report_id f
    else r :: update_report rest report_id f

/-- The worker's error path (script.py:470 and 517): set the job's status
to `Error`, leaving `filename` untouched. -/
def mark_error (reports : List Report) (report_id : String) : List Report :=
  update_report reports report_id (fun r => { r with status := JobStatus.Error })

/-- The worker's success path (script.py:507-508): set status `Complete`
and record the artifact's filename. -/
def mark_complete (reports : List Report) (report_id : String)
    (tmpname : String) : List Report :=
  update_report reports report_id
    (fun r => { r with status := JobStatus.Complete, filename := some tmpname })

/-- The per-store loop body of `generate_report_and_update_db`
(script.py:485-495).  Computing one store's report can raise
(`compute` returns `Except.error`); there is no per-store handler, so the
first raised exception aborts the whole loop and every already-computed
row is discarded.  Grouping the same sequential calls into batches of 100
(script.py:482) only affects progress printing, not the resulting rows or
the abort behaviour, so the loop is modelled directly. -/
def compute_all_rows (compute : String → Except Unit ReportRow) :
    List String → Except Unit (List ReportRow)
  | [] => Except.ok []
  | store_id :: rest =>
    match compute store_id with
    | Except.error e => Except.error e
    | Except.ok row =>
      match compute_all_rows compute rest with
      | Except.error e => Except.error e
      | Except.ok rows => Except.ok (row :: rows)

/-- `generate_report_and_update_db` (script.py:458): one worker run.
Inputs mirror what the run reads from the database: the jobs table, the
job id, the dataset-wide maximum observation timestamp, the snapshot of
distinct store ids, the per-store computation, and the temp-file name.
Returns the updated jobs table and the rows persisted to the artifact
(`none` when no artifact is written). -/
def generate_report_and_update_db (reports : List Report) (report_id : String)
    (max_timestamp : Option Int) (store_ids : List String)
    (compute : String → Except Unit ReportRow) (tmpname : String) :
    List Report × Option (List ReportRow) :=
  match getJob reports report_id with
  | none => (reports, none)
  | some _ =>
    match max_timestamp with
    | none => (mark_error reports report_id, none)
    | some _ =>
      match compute_all_rows compute store_ids with
      | Except.error _ => (mark_error reports report_id, none)
      | Except.ok rows => (mark_complete reports report_id tmpname, some rows)

/-- Response of the `/get_report` endpoint (script.py:520). -/
inductive PollResult where
  | notFound
  | running
  | errorStatus
  | completeFile (filename : Option String)
deriving DecidableEq, Repr

/-- `get_report` (script.py:520): a pure read of the jobs table. -/
def get_report (reports : List Report) (report_id : String) : PollResult :=
  match getJob reports report_id with
  | none => PollResult.notFound
  | some r =>
    match r.status with
    | JobStatus.Running => PollResult.running
    | JobStatus.Error => PollResult.errorStatus
    | JobStatus.Complete => PollResult.completeFile r.filename

/-- The operations that touch the jobs table: `/trigger_report` creating a
fresh `Running` row (script.py:446-448), one worker run, and a poll. -/
inductive Op where
  | trigger (report_id : String)
  | work (report_id : String) (max_timestamp : Option Int)
      (store_ids : List String) (compute : String → Except Unit ReportRow)
      (tmpname : String)
  | poll (report_id : String)

/-- Effect of one operation on the jobs table (polling reads only). -/
def applyOp (reports : List Report) : Op → List Report
  | Op.trigger report_id =>
    reports ++ [{ id := report_id, status := JobStatus.Running, filename := none }]
  | Op.work report_id mt ids compute tmpname =>
    (generate_report_and_update_db reports report_id mt ids compute tmpname).1
  | Op.poll _ => reports

/-- Effect of a sequence of operations. -/
def applyOps (reports : List Report) (ops : List Op) : List Report :=
  ops.foldl applyOp reports

/-- Whether an operation is a worker run on the given job id. -/
def opWorksOn (op : Op) (report_id : String) : Prop :=
  ∃ mt ids compute tmpname, op = Op.work report_id mt ids compute tmpname

/-! ### Concrete instances used by counterexamples and witnesses -/

/-- Per-store computation in which exactly one store (`store_b`) raises. -/
def one_failing_compute : String → Except Unit ReportRow :=
  fun store_id =>
    if store_id = "store_b" then Except.error ()
    else Except.ok ⟨store_id, 0, 0, 0, 0, 0, 0⟩

/-- One worker run over two distinct stores where `store_b` raises. -/
def batch_failure_run : List Report × Option (List ReportRow) :=
  generate_report_and_update_db [⟨"job1", JobStatus.Running, none⟩] "job1"
    (some 0) ["store_a", "store_b"] one_failing_compute "report.csv"

/-! ### Helper lemmas -/

/-- Once the descending-order fold has a candidate it never loses it. -/
theorem foldl_pick_later_ne_none (xs : List Observation) :
    ∀ b : Observation, xs.foldl pick_later (some b) ≠ none := by
  induction xs with
  | nil => intro b h; cases h
  | cons y ys ih =>
    intro b
    rw [List.foldl_cons]
    show List.foldl pick_later
      (if b.timestamp_utc < y.timestamp_utc then some y else some b) ys ≠ none
    by_cases hb : b.timestamp_utc < y.timestamp_utc
    · rw [if_pos hb]; exact ih y
    · rw [if_neg hb]; exact ih b

/-- The `initial_status` query returns no row exactly when the store has
no observation at or before the instant. -/
theorem latest_at_or_before_eq_none_iff (obs : List Observation) (t : Int) :
    latest_at_or_before obs t = none ↔ ∀ o ∈ obs, ¬(o.timestamp_utc ≤ t) := by
  unfold latest_at_or_before
  rcases hl : obs.filter (fun o => decide (o.timestamp_utc ≤ t)) with _ | ⟨x, xs⟩
  · rw [hl, List.foldl_nil]
    rw [List.filter_eq_nil_iff] at hl
    simp only [decide_eq_true_eq] at hl
    exact ⟨fun _ => hl, fun _ => rfl⟩
  · have hx : x ∈ obs.filter (fun o => decide (o.timestamp_utc ≤ t)) := by
      rw [hl]; exact List.mem_cons_self x xs
    rw [List.mem_filter, decide_eq_true_eq] at hx
    rw [hl, List.foldl_cons]
    show List.foldl pick_later (some x) xs = none ↔ _
    constructor
    · intro h; exact absurd h (foldl_pick_later_ne_none xs x)
    · intro hall; exact absurd hx.2 (hall x hx.1)

/-- The in-range query returns no row exactly when the store has no
observation with `start_time ≤ timestamp ≤ end_time`. -/
theorem status_records_isEmpty_iff (store : Store) (start_time end_time : Int) :
    (status_records_in_range store start_time end_time).isEmpty = true ↔
      ∀ o ∈ store.observations,
        ¬(start_time ≤ o.timestamp_utc ∧ o.timestamp_utc ≤ end_time) := by
  unfold status_records_in_range
  rw [List.isEmpty_iff]
  have hperm := List.perm_insertionSort obsLe
    (store.observations.filter (fun o =>
      decide (start_time ≤ o.timestamp_utc) && decide (o.timestamp_utc ≤ end_time)))
  constructor
  · intro hs
    rw [hs] at hperm
    have hnil := List.perm_nil.mp hperm.symm
    rw [List.filter_eq_nil_iff] at hnil
    intro o ho hrange
    exact hnil o ho (by simp [hrange.1, hrange.2])
  · intro hall
    have hnil : store.observations.filter (fun o =>
        decide (start_time ≤ o.timestamp_utc) && decide (o.timestamp_utc ≤ end_time)) = [] := by
      rw [List.filter_eq_nil_iff]
      intro o ho hb
      simp only [Bool.and_eq_true, decide_eq_true_eq] at hb
      exact hall o ho hb
    rw [hnil]
    rfl

/-- A time string that does not split into three `int()`-parseable pieces
makes `parse_time_to_minutes` return `0`. -/
theorem parse_time_fail_eq_zero (time_str : String)
    (hbad : ¬ ∃ h m sec, (splitOnColon time_str.toList).mapM pyInt = some [h, m, sec]) :
    parse_time_to_minutes time_str = 0 := by
  unfold parse_time_to_minutes
  split
  · rename_i h m sec heq
    exact absurd ⟨h, m, sec, heq⟩ hbad
  · rfl

/-! ### Claim theorems -/

set_option maxRecDepth 20000 in
/-- C1 (code_bug): a store with no `BusinessHoursRule` and no observations
at all, over the 24-hour window `[Mon 00:00 UTC, Tue 00:00 UTC)`, takes
the no-data shortcut, yet the code returns `(uptime, downtime) = (0, 0)`
instead of the documented `(0, 1440)`: the shortcut intersects the
business day with the interval from the start's minute-of-day to the
end's minute-of-day, and those two minutes-of-day coincide for any
24-hour window, so the computed overlap is empty even though all 1440
minutes of the window are scheduled open. -/
theorem c1_no_data_24h_window_returns_zero :
    no_data_condition ⟨[], [], 0⟩ 0 1440 = true ∧
    calculate_uptime_downtime ⟨[], [], 0⟩ 0 1440 = (0, 0) ∧
    scheduled_open_minutes ⟨[], [], 0⟩ 0 1440 = 1440 := by
  refine ⟨by decide, by decide, ?_⟩
  decide

/-- C5 (confirmed): carry-forward scenario — timezone UTC, business hours
Monday 09:00–17:00, single observation `(Mon 10:00, Active)`, window
`[Mon 09:00, Mon 11:00)`: the breakpoints are `(09:00, Inactive)`,
`(10:00, Active)`, `(11:00, Active)` and the result is
`uptime = 60, downtime = 60`. -/
theorem c5_carry_forward_scenario :
    all_status_points ⟨[⟨600, Status.active⟩], [⟨0, "09:00:00", "17:00:00"⟩], 0⟩ 540 660 =
      [(540, Status.inactive), (600, Status.active), (660, Status.active)] ∧
    calculate_uptime_downtime
        ⟨[⟨600, Status.active⟩], [⟨0, "09:00:00", "17:00:00"⟩], 0⟩ 540 660 = (60, 60) := by
  constructor
  · decide
  · decide

/-- C6 (confirmed): `calculate_overlap` equals
`max 0 (min business_end interval_end - max business_start interval_start)`
for all integer inputs, and under `0 ≤ business_start ≤ business_end ≤ 1440`
and `interval_start ≤ interval_end` its result lies in
`[0, min (business_end - business_start) (interval_end - interval_start)]`. -/
theorem c6_calculate_overlap_formula_and_bounds :
    (∀ business_start business_end interval_start interval_end : Int,
        calculate_overlap business_start business_end interval_start interval_end =
          max 0 (min business_end interval_end - max business_start interval_start)) ∧
    (∀ business_start business_end interval_start interval_end : Int,
        0 ≤ business_start → business_start ≤ business_end → business_end ≤ 1440 →
        interval_start ≤ interval_end →
        0 ≤ calculate_overlap business_start business_end interval_start interval_end ∧
        calculate_overlap business_start business_end interval_start interval_end ≤
          min (business_end - business_start) (interval_end - interval_start)) := by
  constructor
  · intro _ _ _ _; rfl
  · intro bs be i1 i2 _ _ _ _
    unfold calculate_overlap
    omega

/-- Witness for the hypothesis-bearing part of C6, at
`business = [0, 1440]`, `interval = [540, 600]`. -/
theorem c6_calculate_overlap_witness :
    (0 : Int) ≤ 0 ∧ (0 : Int) ≤ 1440 ∧ (1440 : Int) ≤ 1440 ∧ (540 : Int) ≤ 600 ∧
    (0 ≤ calculate_overlap 0 1440 540 600 ∧
      calculate_overlap 0 1440 540 600 ≤ min (1440 - 0) (600 - 540)) :=
  ⟨by decide, by decide, by decide, by decide,
    c6_calculate_overlap_formula_and_bounds.2 0 1440 540 600
      (by decide) (by decide) (by decide) (by decide)⟩

/-- C9 (confirmed): for every store and reference instant `now`, the report
row carries the hour metrics as the unconverted minute values of the
estimator over `[now-1h, now]`, and the day/week metrics as exactly the
minute values over `[now-1d, now]` and `[now-1w, now]` divided by 60
(stated as exact recovery on multiplication by 60: no rounding). -/
theorem c9_report_row_unit_conversion (store : Store) (sid : String) (now : Int) :
    (generate_store_report store sid now).store_id = sid ∧
    (generate_store_report store sid now).uptime_last_hour =
      (calculate_uptime_downtime store (now - 60) now).1 ∧
    (generate_store_report store sid now).downtime_last_hour =
      (calculate_uptime_downtime store (now - 60) now).2 ∧
    (generate_store_report store sid now).uptime_last_day * 60 =
      ((calculate_uptime_downtime store (now - 1440) now).1 : Rat) ∧
    (generate_store_report store sid now).downtime_last_day * 60 =
      ((calculate_uptime_downtime store (now - 1440) now).2 : Rat) ∧
    (generate_store_report store sid now).uptime_last_week * 60 =
      ((calculate_uptime_downtime store (now - 7 * 1440) now).1 : Rat) ∧
    (generate_store_report store sid now).downtime_last_week * 60 =
      ((calculate_uptime_downtime store (now - 7 * 1440) now).2 : Rat) := by
  refine ⟨rfl, rfl, rfl, ?_, ?_, ?_, ?_⟩ <;>
  · show (_ : Rat) / 60 * 60 = _
    rw [div_mul_cancel₀]
    norm_num

/-- C10 (confirmed): a time string that does not parse as three
colon-separated integers makes `parse_time_to_minutes` return `0`; hence a
`BusinessHours` row whose start and end strings are both malformed makes
`get_business_hours` return `(0, 0)` — closed that day (every overlap
against `(0, 0)` is `0`), not an error and not the 24/7 default. -/
theorem c10_malformed_time_means_closed :
    (∀ time_str : String,
        (¬ ∃ h m sec, (splitOnColon time_str.toList).mapM pyInt = some [h, m, sec]) →
        parse_time_to_minutes time_str = 0) ∧
    (∀ (store : Store) (d : Nat) (row : BusinessHoursRow),
        store.business_hours.find? (fun r => r.day_of_week == d) = some row →
        (¬ ∃ h m sec, (splitOnColon row.start_time_local.toList).mapM pyInt = some [h, m, sec]) →
        (¬ ∃ h m sec, (splitOnColon row.end_time_local.toList).mapM pyInt = some [h, m, sec]) →
        get_business_hours store d = (0, 0)) ∧
    (∀ interval_start interval_end : Int,
        calculate_overlap 0 0 interval_start interval_end = 0) := by
  refine ⟨parse_time_fail_eq_zero, ?_, ?_⟩
  · intro store d row hfind hbad1 hbad2
    unfold get_business_hours
    rw [hfind]
    show (parse_time_to_minutes row.start_time_local,
      parse_time_to_minutes row.end_time_local) = (0, 0)
    rw [parse_time_fail_eq_zero _ hbad1, parse_time_fail_eq_zero _ hbad2]
  · intro i1 i2
    unfold calculate_overlap
    omega

/-- Witness for C10 at the malformed row `("abc", "25:xx")` stored for
day 2: the lookup finds it and yields business hours `(0, 0)`. -/
theorem c10_malformed_witness :
    ((⟨[], [⟨2, "abc", "25:xx"⟩], 0⟩ : Store).business_hours.find?
        (fun r => r.day_of_week == 2) = some ⟨2, "abc", "25:xx"⟩) ∧
    get_business_hours ⟨[], [⟨2, "abc", "25:xx"⟩], 0⟩ 2 = (0, 0) :=
  ⟨rfl, c10_malformed_time_means_closed.2.1 ⟨[], [⟨2, "abc", "25:xx"⟩], 0⟩ 2
    ⟨2, "abc", "25:xx"⟩ rfl
    (fun ⟨_, _, _, heq⟩ => Option.noConfusion heq)
    (fun ⟨_, _, _, heq⟩ => Option.noConfusion heq)⟩

/-- C3 counterexample: a store whose only observation sits exactly at
`end_utc = 100` of the window `[0, 100]` has no observation at or before
the window start and none strictly inside the window, yet the code does
not take the shortcut: the `status_records` query uses
`timestamp_utc <= end_time`, so the observation at `end_utc` is in range
and defeats the `not status_records` guard. -/
theorem c3_observation_at_end_blocks_shortcut :
    (∀ o ∈ (⟨[⟨100, Status.active⟩], [], 0⟩ : Store).observations,
        ¬(o.timestamp_utc ≤ 0)) ∧
    (∀ o ∈ (⟨[⟨100, Status.active⟩], [], 0⟩ : Store).observations,
        ¬(0 < o.timestamp_utc ∧ o.timestamp_utc < 100)) ∧
    no_data_condition ⟨[⟨100, Status.active⟩], [], 0⟩ 0 100 = false := by
  refine ⟨?_, ?_, by decide⟩ <;> decide

/-- C3 amended: the shortcut branch is taken exactly when the store has no
observation with timestamp at or before `end_utc` at all — equivalently,
none at or before `start_utc` and none in the inclusive range
`[start_utc, end_utc]`; an observation exactly at `end_utc` does prevent
the shortcut. -/
theorem c3_shortcut_iff_no_observation_up_to_end (store : Store)
    (start_time end_time : Int) (h : start_time ≤ end_time) :
    no_data_condition store start_time end_time = true ↔
      ∀ o ∈ store.observations, ¬(o.timestamp_utc ≤ end_time) := by
  unfold no_data_condition
  rw [Bool.and_eq_true, Option.isNone_iff_eq_none, latest_at_or_before_eq_none_iff,
    status_records_isEmpty_iff]
  constructor
  · rintro ⟨h1, h2⟩ o ho hle
    rcases le_or_lt o.timestamp_utc start_time with hc | hc
    · exact h1 o ho hc
    · exact h2 o ho ⟨le_of_lt hc, hle⟩
  · intro hall
    refine ⟨fun o ho hle => hall o ho (le_trans hle h), fun o ho hr => hall o ho hr.2⟩

/-- Witness for the amended C3 at a store whose only observation is after
the window `[0, 100]`. -/
theorem c3_shortcut_iff_witness :
    (0 : Int) ≤ 100 ∧
    (no_data_condition ⟨[⟨200, Status.active⟩], [], 0⟩ 0 100 = true ↔
      ∀ o ∈ (⟨[⟨200, Status.active⟩], [], 0⟩ : Store).observations,
        ¬(o.timestamp_utc ≤ 100)) :=
  ⟨by decide, c3_shortcut_iff_no_observation_up_to_end
    ⟨[⟨200, Status.active⟩], [], 0⟩ 0 100 (by decide)⟩

/-- If any store in the list raises, the per-store loop raises: there is
no per-store handler in `generate_report_and_update_db`. -/
theorem compute_all_rows_error (compute : String → Except Unit ReportRow) :
    ∀ store_ids : List String,
      (∃ sid ∈ store_ids, compute sid = Except.error ()) →
      compute_all_rows compute store_ids = Except.error () := by
  intro store_ids
  induction store_ids with
  | nil => rintro ⟨sid, hmem, -⟩; cases hmem
  | cons a rest ih =>
    rintro ⟨sid, hmem, herr⟩
    rcases List.mem_cons.mp hmem with heq | hmem'
    · subst heq
      unfold compute_all_rows
      rw [herr]
    · unfold compute_all_rows
      rcases hca : compute a with e | row
      · cases e; rfl
      · rw [ih ⟨sid, hmem', herr⟩]

/-- C2 counterexample: one worker run over the two distinct stores
`store_a`, `store_b` in which only `store_b`'s computation raises.  The
claim predicts an artifact with 1 row and terminal status `Complete`; the
code instead lets the exception escape the per-store loop, writes no
artifact, and marks the job `Error`. -/
theorem c2_single_failure_aborts_batch :
    batch_failure_run.2 = none ∧
    getJob batch_failure_run.1 "job1" = some ⟨"job1", JobStatus.Error, none⟩ ∧
    ¬ ((∃ rows, batch_failure_run.2 = some rows ∧ rows.length = 1) ∧
        (getJob batch_failure_run.1 "job1").map Report.status = some JobStatus.Complete) := by
  refine ⟨rfl, rfl, ?_⟩
  rintro ⟨⟨rows, hrows, -⟩, -⟩
  rw [show batch_failure_run.2 = none from rfl] at hrows
  cases hrows

/-- C2 amended: during one worker run, if at least one store's computation
raises, the exception propagates out of the per-store loop: every
already-computed row is discarded, no artifact is persisted, and the job's
terminal status is `Error`, not `Complete`. -/
theorem c2_one_failure_means_error (reports : List Report) (report_id : String)
    (t : Int) (store_ids : List String) (compute : String → Except Unit ReportRow)
    (tmpname : String) (hjob : (getJob reports report_id).isSome = true)
    (hfail : ∃ sid ∈ store_ids, compute sid = Except.error ()) :
    generate_report_and_update_db reports report_id (some t) store_ids compute tmpname =
      (mark_error reports report_id, none) := by
  obtain ⟨r, hr⟩ := Option.isSome_iff_exists.mp hjob
  unfold generate_report_and_update_db
  rw [hr, compute_all_rows_error compute store_ids hfail]

/-- Witness for the amended C2 at the concrete two-store run. -/
theorem c2_one_failure_means_error_witness :
    (getJob [⟨"job1", JobStatus.Running, none⟩] "job1").isSome = true ∧
    (∃ sid ∈ ["store_a", "store_b"], one_failing_compute sid = Except.error ()) ∧
    generate_report_and_update_db [⟨"job1", JobStatus.Running, none⟩] "job1" (some 0)
        ["store_a", "store_b"] one_failing_compute "report.csv" =
      (mark_error [⟨"job1", JobStatus.Running, none⟩] "job1", none) :=
  ⟨by decide, ⟨"store_b", by decide, rfl⟩,
    c2_one_failure_means_error _ _ 0 _ _ _ (by decide) ⟨"store_b", by decide, rfl⟩⟩

/-- C7 (confirmed): when the dataset has no observation at all (no maximum
observation timestamp), the worker marks the job `Error` and stops; the
result does not depend on the store list or the per-store computation (no
per-store work is attempted) and no artifact is produced. -/
theorem c7_no_data_marks_job_error (reports : List Report) (report_id : String)
    (store_ids : List String) (compute : String → Except Unit ReportRow)
    (tmpname : String) (hjob : (getJob reports report_id).isSome = true) :
    generate_report_and_update_db reports report_id none store_ids compute tmpname =
      (mark_error reports report_id, none) := by
  obtain ⟨r, hr⟩ := Option.isSome_iff_exists.mp hjob
  unfold generate_report_and_update_db
  rw [hr]

/-- Witness for C7 at a concrete one-job table. -/
theorem c7_no_data_marks_job_error_witness :
    (getJob [⟨"job1", JobStatus.Running, none⟩] "job1").isSome = true ∧
    generate_report_and_update_db [⟨"job1", JobStatus.Running, none⟩] "job1" none
        ["store_a"] one_failing_compute "report.csv" =
      (mark_error [⟨"job1", JobStatus.Running, none⟩] "job1", none) :=
  ⟨by decide, c7_no_data_marks_job_error _ _ ["store_a"] one_failing_compute
    "report.csv" (by decide)⟩

/-- Updating the row with a given id (keeping ids unchanged) maps the
looked-up row through the update. -/
theorem getJob_update_self (reports : List Report) (report_id : String)
    (f : Report → Report) (hf : ∀ r, (f r).id = r.id) :
    getJob (update_report reports report_id f) report_id =
      (getJob reports report_id).map f := by
  unfold getJob
  induction reports with
  | nil => rfl
  | cons a t ih =>
    rw [update_report]
    by_cases hpa : (a.id == report_id) = true
    · have h2 : ((f a).id == report_id) = true := by rw [hf a]; exact hpa
      rw [if_pos hpa, List.find?_cons, List.find?_cons, h2, hpa]
      rfl
    · have hpa' : (a.id == report_id) = false := by
        cases h : (a.id == report_id)
        · rfl
        · exact absurd h hpa
      rw [if_neg hpa, List.find?_cons, List.find?_cons, hpa']
      exact ih

/-- Updating the row with one id (keeping ids unchanged) leaves lookups
of any other id unchanged. -/
theorem getJob_update_other (reports : List Report) (report_id other_id : String)
    (f : Report → Report) (hf : ∀ r, (f r).id = r.id)
    (hne : other_id ≠ report_id) :
    getJob (update_report reports report_id f) other_id =
      getJob reports other_id := by
  unfold getJob
  induction reports with
  | nil => rfl
  | cons a t ih =>
    rw [update_report]
    by_cases hpa : (a.id == report_id) = true
    · have ha : a.id = report_id := by simpa using hpa
      have hother : (a.id == other_id) = false := by
        simp only [beq_eq_false_iff_ne, ne_eq, ha]
        exact fun he => hne he.symm
      have hother' : ((f a).id == other_id) = false := by rw [hf a]; exact hother
      rw [if_pos hpa, List.find?_cons, List.find?_cons, hother, hother']
      exact ih
    · rw [if_neg hpa, List.find?_cons, List.find?_cons]
      cases hq : (a.id == other_id) with
      | true => rfl
      | false => exact ih

/-- The jobs table after one worker run is one of three things: unchanged
(job id not found), the table with the job marked `Error`, or the table
with the job marked `Complete` with the artifact filename. -/
theorem worker_reports_shape (reports : List Report) (report_id : String)
    (mt : Option Int) (ids : List String) (compute : String → Except Unit ReportRow)
    (tmpname : String) :
    (generate_report_and_update_db reports report_id mt ids compute tmpname).1 =
        reports ∨
    (generate_report_and_update_db reports report_id mt ids compute tmpname).1 =
        mark_error reports report_id ∨
    (generate_report_and_update_db reports report_id mt ids compute tmpname).1 =
        mark_complete reports report_id tmpname := by
  unfold generate_report_and_update_db
  rcases getJob reports report_id with _ | r'
  · exact Or.inl rfl
  · rcases mt with _ | t
    · exact Or.inr (Or.inl rfl)
    · rcases compute_all_rows compute ids with e | rows
      · exact Or.inr (Or.inl rfl)
      · exact Or.inr (Or.inr rfl)

/-- One operation that is not a worker run on the job leaves an existing
row of that job unchanged. -/
theorem terminal_preserved_step (reports : List Report) (op : Op)
    (report_id : String) (r : Report) (hr : getJob reports report_id = some r)
    (hop : ¬ opWorksOn op report_id) :
    getJob (applyOp reports op) report_id = some r := by
  cases op with
  | trigger other_id =>
    show getJob (reports ++ [_]) report_id = some r
    unfold getJob at hr ⊢
    rw [List.find?_append, hr]
    rfl
  | poll other_id => exact hr
  | work other_id mt ids compute tmpname =>
    have hne : report_id ≠ other_id := by
      intro he
      exact hop ⟨mt, ids, compute, tmpname, by rw [he]⟩
    show getJob (generate_report_and_update_db reports other_id mt ids compute
      tmpname).1 report_id = some r
    rcases worker_reports_shape reports other_id mt ids compute tmpname with h | h | h
    · rw [h]; exact hr
    · rw [h]
      exact (getJob_update_other reports other_id report_id
        (fun r => { r with status := JobStatus.Error }) (fun _ => rfl) hne).trans hr
    · rw [h]
      exact (getJob_update_other reports other_id report_id
        (fun r => { r with status := JobStatus.Complete, filename := some tmpname })
        (fun _ => rfl) hne).trans hr

/-- Over a whole operation sequence containing no worker run on the job,
an existing row of that job never changes. -/
theorem terminal_preserved_ops (ops : List Op) :
    ∀ (reports : List Report) (report_id : String) (r : Report),
      getJob reports report_id = some r →
      (∀ op ∈ ops, ¬ opWorksOn op report_id) →
      getJob (applyOps reports ops) report_id = some r := by
  induction ops with
  | nil => intro reports report_id r hr _; exact hr
  | cons op rest ih =>
    intro reports report_id r hr hall
    show getJob (applyOps (applyOp reports op) rest) report_id = some r
    exact ih _ _ _
      (terminal_preserved_step reports op report_id r hr
        (hall op (List.mem_cons_self op rest)))
      (fun o ho => hall o (List.mem_cons_of_mem op ho))

/-- C8 (confirmed): (1) triggering creates the job in `Running` with no
artifact handle; (2) a worker run on a `Running` job leaves it `Complete`
with the artifact filename or `Error` without one — both terminal;
(3) polling never mutates the jobs table, (4) so repeated polls return
identical results; (5) across any operation sequence that contains no
further worker run on the job (the pipeline submits each job to the
worker exactly once), an existing job row — in particular a terminal
one — never changes, so polls after completion keep returning the same
terminal state and handle. -/
theorem c8_job_state_machine :
    (∀ (reports : List Report) (report_id : String),
        getJob reports report_id = none →
        getJob (applyOp reports (Op.trigger report_id)) report_id =
          some ⟨report_id, JobStatus.Running, none⟩) ∧
    (∀ (reports : List Report) (report_id : String) (r : Report)
        (mt : Option Int) (ids : List String)
        (compute : String → Except Unit ReportRow) (tmpname : String),
        getJob reports report_id = some r → r.status = JobStatus.Running →
        r.filename = none →
        ∃ r', getJob (applyOp reports
            (Op.work report_id mt ids compute tmpname)) report_id = some r' ∧
          ((r'.status = JobStatus.Complete ∧ r'.filename = some tmpname) ∨
           (r'.status = JobStatus.Error ∧ r'.filename = none))) ∧
    (∀ (reports : List Report) (report_id : String),
        applyOp reports (Op.poll report_id) = reports) ∧
    (∀ (reports : List Report) (report_id : String),
        get_report (applyOp reports (Op.poll report_id)) report_id =
          get_report reports report_id) ∧
    (∀ (ops : List Op) (reports : List Report) (report_id : String) (r : Report),
        getJob reports report_id = some r → r.status ≠ JobStatus.Running →
        (∀ op ∈ ops, ¬ opWorksOn op report_id) →
        getJob (applyOps reports ops) report_id = some r) := by
  refine ⟨?_, ?_, fun _ _ => rfl, fun _ _ => rfl,
    fun ops reports report_id r hr hterm hall =>
      terminal_preserved_ops ops reports report_id r hr hall⟩
  · intro reports report_id hnone
    show getJob (reports ++ [_]) report_id = _
    unfold getJob at hnone ⊢
    rw [List.find?_append, hnone]
    simp
  · intro reports report_id r mt ids compute tmpname hr hrun hfn
    show ∃ r', getJob (generate_report_and_update_db reports report_id mt ids
      compute tmpname).1 report_id = some r' ∧ _
    unfold generate_report_and_update_db
    rw [hr]
    rcases mt with _ | t
    · refine ⟨{ r with status := JobStatus.Error }, ?_, Or.inr ⟨rfl, hfn⟩⟩
      show getJob (mark_error reports report_id) report_id = _
      rw [mark_error, getJob_update_self reports report_id
        (fun r => { r with status := JobStatus.Error }) (fun _ => rfl), hr]
      rfl
    · rcases compute_all_rows compute ids with e | rows
      · refine ⟨{ r with status := JobStatus.Error }, ?_, Or.inr ⟨rfl, hfn⟩⟩
        show getJob (mark_error reports report_id) report_id = _
        rw [mark_error, getJob_update_self reports report_id
          (fun r => { r with status := JobStatus.Error }) (fun _ => rfl), hr]
        rfl
      · refine ⟨{ r with status := JobStatus.Complete, filename := some tmpname },
          ?_, Or.inl ⟨rfl, rfl⟩⟩
        show getJob (mark_complete reports report_id tmpname) report_id = _
        rw [mark_complete, getJob_update_self reports report_id
          (fun r => { r with status := JobStatus.Complete, filename := some tmpname })
          (fun _ => rfl), hr]
        rfl

/-- Witness for C8, instantiating every conjunct at a concrete one-job
table. -/
theorem c8_job_state_machine_witness :
    (getJob ([] : List Report) "job1" = none ∧
      getJob (applyOp [] (Op.trigger "job1")) "job1" =
        some ⟨"job1", JobStatus.Running, none⟩) ∧
    (∃ r', getJob (applyOp [⟨"job1", JobStatus.Running, none⟩]
          (Op.work "job1" none [] one_failing_compute "t.csv")) "job1" = some r' ∧
        ((r'.status = JobStatus.Complete ∧ r'.filename = some "t.csv") ∨
         (r'.status = JobStatus.Error ∧ r'.filename = none))) ∧
    (applyOp [⟨"job1", JobStatus.Complete, some "f.csv"⟩] (Op.poll "job1") =
      [⟨"job1", JobStatus.Complete, some "f.csv"⟩]) ∧
    (get_report (applyOp [⟨"job1", JobStatus.Complete, some "f.csv"⟩]
        (Op.poll "job1")) "job1" =
      get_report [⟨"job1", JobStatus.Complete, some "f.csv"⟩] "job1") ∧
    (getJob (applyOps [⟨"job1", JobStatus.Complete, some "f.csv"⟩]
        [Op.poll "job1"]) "job1" =
      some ⟨"job1", JobStatus.Complete, some "f.csv"⟩) :=
  ⟨⟨rfl, c8_job_state_machine.1 [] "job1" rfl⟩,
   c8_job_state_machine.2.1 [⟨"job1", JobStatus.Running, none⟩] "job1"
     ⟨"job1", JobStatus.Running, none⟩ none [] one_failing_compute "t.csv"
     rfl rfl rfl,
   c8_job_state_machine.2.2.1 [⟨"job1", JobStatus.Complete, some "f.csv"⟩] "job1",
   c8_job_state_machine.2.2.2.1 [⟨"job1", JobStatus.Complete, some "f.csv"⟩] "job1",
   c8_job_state_machine.2.2.2.2 [Op.poll "job1"]
     [⟨"job1", JobStatus.Complete, some "f.csv"⟩] "job1"
     ⟨"job1", JobStatus.Complete, some "f.csv"⟩ rfl (by decide)
     (by
       intro op hop
       rw [List.mem_singleton] at hop
       subst hop
       rintro ⟨mt, ids, compute, tmpname, heq⟩
       cases heq)⟩

/-- Scheduled-open minutes are nonnegative. -/
theorem scheduled_nonneg (store : Store) (a b : Int) :
    0 ≤ scheduled_open_minutes store a b :=
  Int.natCast_nonneg _

/-- Scheduled-open minutes add over adjacent local intervals. -/
theorem scheduled_add (store : Store) (a b c : Int) (h1 : a ≤ b) (h2 : b ≤ c) :
    scheduled_open_minutes store a c =
      scheduled_open_minutes store a b + scheduled_open_minutes store b c := by
  unfold scheduled_open_minutes
  rw [← Finset.Ico_union_Ico_eq_Ico h1 h2, Finset.filter_union,
    Finset.card_union_of_disjoint
      (Finset.disjoint_filter_filter (Finset.Ico_disjoint_Ico_consecutive a b c))]
  push_cast
  ring

/-- Over a local interval contained in the single local day `d`, the
scheduled-open minutes are exactly the overlap of that day's business
hours with the interval's minute-of-day bounds. -/
theorem scheduled_eq_overlap (store : Store) (a b d : Int)
    (h1 : 1440 * d ≤ a) (hab : a ≤ b) (h2 : b ≤ 1440 * (d + 1)) :
    scheduled_open_minutes store a b =
      calculate_overlap (get_business_hours store ((d % 7).toNat)).1
        (get_business_hours store ((d % 7).toNat)).2
        (a - 1440 * d) (b - 1440 * d) := by
  unfold scheduled_open_minutes
  have hfc : ∀ t ∈ Finset.Ico a b, (openAt store t ↔
      1440 * d + (get_business_hours store ((d % 7).toNat)).1 ≤ t ∧
        t < 1440 * d + (get_business_hours store ((d % 7).toNat)).2) := by
    intro t ht
    rw [Finset.mem_Ico] at ht
    have hdiv : t / 1440 = d := by omega
    have hmod : t % 1440 = t - 1440 * d := by omega
    unfold openAt weekday
    rw [hdiv, hmod]
    constructor <;> intro hh <;> omega
  rw [Finset.filter_congr hfc]
  have hset : (Finset.Ico a b).filter (fun t =>
      1440 * d + (get_business_hours store ((d % 7).toNat)).1 ≤ t ∧
        t < 1440 * d + (get_business_hours store ((d % 7).toNat)).2) =
      Finset.Ico (max a (1440 * d + (get_business_hours store ((d % 7).toNat)).1))
        (min b (1440 * d + (get_business_hours store ((d % 7).toNat)).2)) := by
    ext t
    simp only [Finset.mem_filter, Finset.mem_Ico]
    omega
  rw [hset, Int.card_Ico]
  unfold calculate_overlap
  omega

/-- The overlap contribution of one segment is nonnegative in both
components and bounded by the scheduled-open minutes of the segment. -/
theorem segment_contribution_bound (store : Store) (p q : Int × Status)
    (hpq : p.1 ≤ q.1) :
    0 ≤ (segment_contribution store p q).1 ∧
    0 ≤ (segment_contribution store p q).2 ∧
    (segment_contribution store p q).1 + (segment_contribution store p q).2 ≤
      scheduled_open_minutes store p.1 q.1 := by
  obtain ⟨a, st⟩ := p
  obtain ⟨b, st'⟩ := q
  simp only at hpq
  unfold segment_contribution
  simp only
  by_cases hd : a / 1440 ≠ b / 1440
  · rw [if_pos hd]
    have hdlt : a / 1440 < b / 1440 := by omega
    have heq1 := scheduled_eq_overlap store a (1440 * (a / 1440 + 1)) (a / 1440)
      (by omega) (by omega) (by omega)
    have heq2 := scheduled_eq_overlap store (1440 * (b / 1440)) b (b / 1440)
      (by omega) (by omega) (by omega)
    have hadd1 := scheduled_add store a (1440 * (a / 1440 + 1)) b (by omega) (by omega)
    have hadd2 := scheduled_add store (1440 * (a / 1440 + 1)) (1440 * (b / 1440)) b
      (by omega) (by omega)
    have hnn := scheduled_nonneg store (1440 * (a / 1440 + 1)) (1440 * (b / 1440))
    unfold weekday
    unfold calculate_overlap at heq1 heq2 ⊢
    cases st
    · rw [if_pos rfl]
      simp only
      constructor
      · omega
      · constructor
        · omega
        · omega
    · rw [if_neg (by intro hcontra; cases hcontra)]
      simp only
      refine ⟨le_rfl, ?_, ?_⟩ <;> omega
  · rw [if_neg hd]
    have hde : a / 1440 = b / 1440 := by omega
    have heq := scheduled_eq_overlap store a b (a / 1440) (by omega) hpq (by omega)
    unfold weekday
    unfold calculate_overlap at heq ⊢
    cases st
    · rw [if_pos rfl]
      simp only
      refine ⟨?_, le_rfl, ?_⟩ <;> omega
    · rw [if_neg (by intro hcontra; cases hcontra)]
      simp only
      refine ⟨le_rfl, ?_, ?_⟩ <;> omega

/-- Summing segment contributions over a time-sorted breakpoint list stays
within the scheduled-open minutes between the first and last breakpoint. -/
theorem segments_total_bound (store : Store) :
    ∀ (rest : List (Int × Status)) (p x : Int × Status),
      (p :: rest).getLast? = some x →
      (p :: rest).Pairwise (fun a b => a.1 ≤ b.1) →
      0 ≤ (segments_total store (p :: rest)).1 ∧
      0 ≤ (segments_total store (p :: rest)).2 ∧
      p.1 ≤ x.1 ∧
      (segments_total store (p :: rest)).1 + (segments_total store (p :: rest)).2 ≤
        scheduled_open_minutes store p.1 x.1 := by
  intro rest
  induction rest with
  | nil =>
    intro p x hx _
    rw [List.getLast?_singleton] at hx
    cases hx
    refine ⟨le_rfl, le_rfl, le_rfl, ?_⟩
    show (0 : Int) + 0 ≤ scheduled_open_minutes store p.1 p.1
    simpa using scheduled_nonneg store p.1 p.1
  | cons q rest ih =>
    intro p x hx hp
    rw [List.getLast?_cons_cons] at hx
    have hpq : p.1 ≤ q.1 :=
      (List.pairwise_cons.mp hp).1 q (List.mem_cons_self q rest)
    obtain ⟨h1, h2, h3, h4⟩ := ih q x hx (List.pairwise_cons.mp hp).2
    obtain ⟨g1, g2, g3⟩ := segment_contribution_bound store p q hpq
    refine ⟨?_, ?_, le_trans hpq h3, ?_⟩
    · show 0 ≤ (segment_contribution store p q).1 + (segments_total store (q :: rest)).1
      exact add_nonneg g1 h1
    · show 0 ≤ (segment_contribution store p q).2 + (segments_total store (q :: rest)).2
      exact add_nonneg g2 h2
    · show ((segment_contribution store p q).1 + (segments_total store (q :: rest)).1) +
          ((segment_contribution store p q).2 + (segments_total store (q :: rest)).2) ≤ _
      have hs := scheduled_add store p.1 q.1 x.1 hpq h3
      omega

/-- The generic shape of the breakpoint list is sorted by time: the local
start bounds the strictly-inside middle points, which are sorted because
the records are, and everything is bounded by the local end. -/
theorem points_pairwise_general (off ls le : Int) (cs lastst : Status)
    (srs : List Observation) (hsorted : srs.Pairwise obsLe) (hle : ls ≤ le) :
    ((ls, cs) :: (srs.filter (fun r => decide (ls < r.timestamp_utc + off) &&
        decide (r.timestamp_utc + off < le))).map
      (fun r => (r.timestamp_utc + off, r.status)) ++ [(le, lastst)]).Pairwise
      (fun x y => x.1 ≤ y.1) := by
  have hmid : ∀ x ∈ (srs.filter (fun r => decide (ls < r.timestamp_utc + off) &&
      decide (r.timestamp_utc + off < le))).map
        (fun r => (r.timestamp_utc + off, r.status)), ls < x.1 ∧ x.1 < le := by
    intro x hx
    obtain ⟨r, hr, hrx⟩ := List.mem_map.mp hx
    obtain ⟨-, hpred⟩ := List.mem_filter.mp hr
    simp only [Bool.and_eq_true, decide_eq_true_eq] at hpred
    rw [← hrx]
    exact hpred
  have hmidpw : ((srs.filter (fun r => decide (ls < r.timestamp_utc + off) &&
      decide (r.timestamp_utc + off < le))).map
        (fun r => (r.timestamp_utc + off, r.status))).Pairwise
        (fun x y => (x : Int × Status).1 ≤ y.1) := by
    refine List.Pairwise.map _ ?_ (List.Pairwise.filter _ hsorted)
    intro a b hab
    exact add_le_add_right hab off
  refine List.Pairwise.cons ?_ (List.pairwise_append.mpr
    ⟨hmidpw, List.pairwise_singleton _ _, ?_⟩)
  · intro x hx
    rcases List.mem_append.mp hx with hxm | hxl
    · exact le_of_lt (hmid x hxm).1
    · rw [List.mem_singleton] at hxl
      rw [hxl]
      exact hle
  · intro x hxm y hyl
    rw [List.mem_singleton] at hyl
    rw [hyl]
    exact le_of_lt (hmid x hxm).2

/-- The breakpoint list of `all_status_points` is sorted by time. -/
theorem all_status_points_pairwise (store : Store) (s e : Int) (h : s ≤ e) :
    (all_status_points store s e).Pairwise (fun x y => x.1 ≤ y.1) := by
  have hs : (status_records_in_range store s e).Pairwise obsLe :=
    List.sorted_insertionSort obsLe _
  exact points_pairwise_general store.tz_offset (s + store.tz_offset)
    (e + store.tz_offset) _ _ _ hs (by omega)

/-- The breakpoint list starts at the local window start and ends at the
local window end. -/
theorem all_status_points_shape (store : Store) (s e : Int) :
    ∃ cs middle lastst, all_status_points store s e =
      (s + store.tz_offset, cs) :: middle ++ [(e + store.tz_offset, lastst)] :=
  ⟨_, _, _, rfl⟩

/-- On the shortcut branch the computed downtime never exceeds the
scheduled-open minutes of the local window. -/
theorem shortcut_le_scheduled (store : Store) (ls le : Int) (hle : ls ≤ le) :
    calculate_overlap (get_business_hours store (weekday ls)).1
      (get_business_hours store (weekday ls)).2 (ls % 1440) (le % 1440) ≤
    scheduled_open_minutes store ls le := by
  by_cases hdd : le < 1440 * (ls / 1440 + 1)
  · have heq := scheduled_eq_overlap store ls le (ls / 1440) (by omega) hle (by omega)
    unfold weekday
    unfold calculate_overlap at heq ⊢
    omega
  · have heq := scheduled_eq_overlap store ls (1440 * (ls / 1440 + 1)) (ls / 1440)
      (by omega) (by omega) (by omega)
    have hadd := scheduled_add store ls (1440 * (ls / 1440 + 1)) le (by omega) (by omega)
    have hnn := scheduled_nonneg store (1440 * (ls / 1440 + 1)) le
    unfold weekday
    unfold calculate_overlap at heq ⊢
    omega

/-- On `no_data_condition` the estimator takes the shortcut. -/
theorem calc_eq_shortcut (store : Store) (s e : Int)
    (hc : no_data_condition store s e = true) :
    calculate_uptime_downtime store s e =
      (0, calculate_overlap
        (get_business_hours store (weekday (s + store.tz_offset))).1
        (get_business_hours store (weekday (s + store.tz_offset))).2
        ((s + store.tz_offset) % 1440) ((e + store.tz_offset) % 1440)) := by
  simp only [calculate_uptime_downtime]
  rw [if_pos hc]

/-- Otherwise the estimator runs the segment loop on the breakpoints. -/
theorem calc_eq_segments (store : Store) (s e : Int)
    (hc : no_data_condition store s e = false) :
    calculate_uptime_downtime store s e =
      segments_total store (all_status_points store s e) := by
  simp only [calculate_uptime_downtime]
  rw [if_neg (by simp [hc])]

/-- C4 (confirmed): for every store and window with `start ≤ end`, the
estimator's uptime and downtime are nonnegative and their sum is at most
the total scheduled-open (business-hours) minutes of the local window. -/
theorem c4_uptime_downtime_bounded (store : Store) (start_time end_time : Int)
    (h : start_time ≤ end_time) :
    0 ≤ (calculate_uptime_downtime store start_time end_time).1 ∧
    0 ≤ (calculate_uptime_downtime store start_time end_time).2 ∧
    (calculate_uptime_downtime store start_time end_time).1 +
        (calculate_uptime_downtime store start_time end_time).2 ≤
      scheduled_open_minutes store (start_time + store.tz_offset)
        (end_time + store.tz_offset) := by
  cases hc : no_data_condition store start_time end_time with
  | true =>
    rw [calc_eq_shortcut store start_time end_time hc]
    refine ⟨le_rfl, ?_, ?_⟩
    · show (0 : Int) ≤ calculate_overlap _ _ _ _
      exact le_max_left 0 _
    · show (0 : Int) + calculate_overlap _ _ _ _ ≤ _
      rw [zero_add]
      exact shortcut_le_scheduled store (start_time + store.tz_offset)
        (end_time + store.tz_offset) (by omega)
  | false =>
    rw [calc_eq_segments store start_time end_time hc]
    obtain ⟨cs, middle, lastst, hpts⟩ := all_status_points_shape store start_time end_time
    have hpw := all_status_points_pairwise store start_time end_time h
    rw [hpts] at hpw
    rw [hpts]
    have hx : (((start_time + store.tz_offset, cs) :: middle) ++
        [(end_time + store.tz_offset, lastst)]).getLast? =
        some (end_time + store.tz_offset, lastst) :=
      List.getLast?_concat _
    obtain ⟨b1, b2, b3, b4⟩ := segments_total_bound store
      (middle ++ [(end_time + store.tz_offset, lastst)])
      (start_time + store.tz_offset, cs) (end_time + store.tz_offset, lastst)
      hx hpw
    exact ⟨b1, b2, b4⟩

/-- Witness for C4 at the empty store over the window `[0, 2]`. -/
theorem c4_uptime_downtime_bounded_witness :
    (0 : Int) ≤ 2 ∧
    (0 ≤ (calculate_uptime_downtime ⟨[], [], 0⟩ 0 2).1 ∧
     0 ≤ (calculate_uptime_downtime ⟨[], [], 0⟩ 0 2).2 ∧
     (calculate_uptime_downtime ⟨[], [], 0⟩ 0 2).1 +
         (calculate_uptime_downtime ⟨[], [], 0⟩ 0 2).2 ≤
       scheduled_open_minutes ⟨[], [], 0⟩
         (0 + (⟨[], [], 0⟩ : Store).tz_offset)
         (2 + (⟨[], [], 0⟩ : Store).tz_offset)) :=
  ⟨by decide, c4_uptime_downtime_bounded ⟨[], [], 0⟩ 0 2 (by decide)⟩
